import Mathlib

/-!
Shallow embedding of the ETL pipeline in `src/src/etl.py`
(class `DataProcessor`: `extract_data`, `_load_sample_data`, `transform_data`,
`load_data`, `run_pipeline`).

Modelling conventions:
* A DataFrame is a `Table`: an ordered list of named, dtype-tagged columns.
* A numeric cell is `some q` (a finite value, as a rational) or `none` (NaN).
  The post-division infinities that can appear inside `transform_data` are
  modelled by the intermediate type `FloatVal` and are eliminated by the
  `replace([inf, -inf], 0)` step, exactly as in the source.
* A datetime cell is `some` a `Timestamp` or `none` (NaT); `Timestamp` is
  abstracted to the three components the pipeline reads (`dt.month`,
  `dt.day_name()`, `dt.hour`).
* The `request_timestamp` column of the data model is datetime-typed, so
  `pd.to_datetime` on it is the identity; string-typed timestamp columns are
  outside the model and make `transform_data` fail.
* Exceptions are modelled by `Except ETLError`, using the error taxonomy by
  stage (extraction, transformation, persistence).
-/

namespace ETL

/-- A calendar timestamp, abstracted to the components that the pipeline
derives from it: the month number, the English weekday name and the hour. -/
structure Timestamp where
  month : ℕ
  weekdayName : String
  hour : ℕ
deriving DecidableEq, Repr

/-- One column of a DataFrame, tagged with its dtype so that
`select_dtypes` can be modelled: numeric, object (string), datetime64 and
categorical (the dtype produced by `pd.cut`). A `none` cell is missing. -/
inductive ColData where
  | numCol (xs : List (Option ℚ))
  | strCol (xs : List (Option String))
  | dtCol (xs : List (Option Timestamp))
  | catCol (xs : List (Option String))
deriving DecidableEq, Repr

/-- Number of cells in a column. -/
def ColData.length : ColData → ℕ
  | .numCol xs => xs.length
  | .strCol xs => xs.length
  | .dtCol xs => xs.length
  | .catCol xs => xs.length

/-- Whether a column contains a missing value. -/
def ColData.hasMissing : ColData → Bool
  | .numCol xs => xs.any (fun x => x.isNone)
  | .strCol xs => xs.any (fun x => x.isNone)
  | .dtCol xs => xs.any (fun x => x.isNone)
  | .catCol xs => xs.any (fun x => x.isNone)

/-- A DataFrame: an ordered list of named columns. -/
structure Table where
  cols : List (String × ColData)
deriving DecidableEq, Repr

/-- The column names, in order. -/
def Table.names (t : Table) : List String := t.cols.map Prod.fst

/-- First-match lookup of a column by name. -/
def lookupCol : List (String × ColData) → String → Option ColData
  | [], _ => none
  | p :: rest, n => if p.1 = n then some p.2 else lookupCol rest n

/-- Column access `df[n]` (first match). -/
def Table.getCol (t : Table) (n : String) : Option ColData := lookupCol t.cols n

/-- Column assignment `df[n] = d`: replace in place when the name exists,
append at the end otherwise. -/
def Table.setCol (t : Table) (n : String) (d : ColData) : Table :=
  if n ∈ t.names then ⟨t.cols.map (fun p => if p.1 = n then (n, d) else p)⟩
  else ⟨t.cols ++ [(n, d)]⟩

/-- Row count (`df.shape[0]`): the length of the first column. -/
def Table.nRows (t : Table) : ℕ :=
  match t.cols with
  | [] => 0
  | c :: _ => c.2.length

/-- Every column has length `k`. -/
def Table.allLen (t : Table) (k : ℕ) : Prop := ∀ p ∈ t.cols, p.2.length = k

/-- Well-formedness: all columns have the row count as their length. -/
def Table.uniform (t : Table) : Prop := t.allLen t.nRows

/-- Median as computed by `Series.median()`: sort ascending, take the middle
element for odd length, the mean of the two middle elements for even length;
undefined (NaN) on the empty list. -/
def median (xs : List ℚ) : Option ℚ :=
  if xs.length = 0 then none
  else
    let s := List.insertionSort (fun a b => a ≤ b) xs
    if xs.length % 2 = 1 then some (s.getD (xs.length / 2) 0)
    else some ((s.getD (xs.length / 2 - 1) 0 + s.getD (xs.length / 2) 0) / 2)

/-- Numeric imputation of one column, as in lines 123 to 125 of `etl.py`:
when the column has a null, fill nulls with the median of the non-null
values (filling with a NaN median, the all-null case, changes nothing). -/
def imputeNum (xs : List (Option ℚ)) : List (Option ℚ) :=
  if xs.any (fun x => x.isNone) then
    match median (xs.filterMap id) with
    | some m => xs.map (fun x => some (x.getD m))
    | none => xs
  else xs

/-- The sentinel the source fills missing categorical cells with
(the string literal in line 129 of `etl.py`; the spec calls it Unknown). -/
def sentinel : String := "Desconocido"

/-- Categorical imputation of one column, as in lines 127 to 129 of
`etl.py`: when the column has a null, fill nulls with the sentinel. -/
def imputeStr (xs : List (Option String)) : List (Option String) :=
  if xs.any (fun x => x.isNone) then xs.map (fun x => some (x.getD sentinel))
  else xs

/-- Step 1 of `transform_data` on one column: numeric columns get median
imputation, object columns get the sentinel, datetime and categorical
columns are untouched (they match neither `np.number` nor `object`). -/
def imputeCol : ColData → ColData
  | .numCol xs => .numCol (imputeNum xs)
  | .strCol xs => .strCol (imputeStr xs)
  | .dtCol xs => .dtCol xs
  | .catCol xs => .catCol xs

/-- Step 1 of `transform_data` on the whole table. -/
def imputeTable (t : Table) : Table :=
  ⟨t.cols.map (fun p => (p.1, imputeCol p.2))⟩

/-- Derivation `df.fecha_solicitud.dt.month` (float column, NaN for NaT). -/
def mesVals (ts : List (Option Timestamp)) : List (Option ℚ) :=
  ts.map (fun o => o.map (fun u => (u.month : ℚ)))

/-- Derivation `df.fecha_solicitud.dt.day_name()` (object column). -/
def diaVals (ts : List (Option Timestamp)) : List (Option String) :=
  ts.map (fun o => o.map Timestamp.weekdayName)

/-- Derivation `df.fecha_solicitud.dt.hour` (float column, NaN for NaT). -/
def horaVals (ts : List (Option Timestamp)) : List (Option ℚ) :=
  ts.map (fun o => o.map (fun u => (u.hour : ℚ)))

/-- A float computation result: finite, one of the infinities, or NaN. -/
inductive FloatVal where
  | finite (q : ℚ)
  | posInf
  | negInf
  | nan
deriving DecidableEq, Repr

/-- IEEE division of two cells as pandas performs it: a missing operand
gives NaN; division by zero gives an infinity of the sign of the numerator,
and NaN when the numerator is also zero. -/
def fdiv : Option ℚ → Option ℚ → FloatVal
  | some a, some b =>
    if b ≠ 0 then .finite (a / b)
    else if 0 < a then .posInf
    else if a < 0 then .negInf
    else .nan
  | _, _ => .nan

/-- The `replace([np.inf, -np.inf], 0)` step of line 139: both infinities
become 0; NaN is left alone and stays a missing cell. -/
def replaceInfWithZero : FloatVal → Option ℚ
  | .finite q => some q
  | .posInf => some 0
  | .negInf => some 0
  | .nan => none

/-- Lines 137 to 139: `costo_por_pagina = costo_estimado / cantidad_paginas`
followed by the infinity replacement. -/
def costoPorPagina (ce cp : List (Option ℚ)) : List (Option ℚ) :=
  List.zipWith (fun a b => replaceInfWithZero (fdiv a b)) ce cp

/-- The bin function of `pd.cut(bins := [0, 50, 200, 500], right)` with the
three labels of line 145: right-inclusive bins, values outside (0, 500]
fall in no bin and give a missing category. -/
def sizeBucket (p : ℚ) : Option String :=
  if 0 < p ∧ p ≤ 50 then some "Pequeño"
  else if 50 < p ∧ p ≤ 200 then some "Mediano"
  else if 200 < p ∧ p ≤ 500 then some "Grande"
  else none

/-- Lines 141 to 146: the size category column; a missing page count stays
missing. -/
def categoriaTamano (cp : List (Option ℚ)) : List (Option String) :=
  cp.map (fun x => x.bind sizeBucket)

/-- The five derived column names, in the order the source appends them. -/
def derivedNames : List String :=
  ["mes", "dia_semana", "hora", "costo_por_pagina", "categoria_tamano"]

/-- Lines 131 to 135: rewrite `fecha_solicitud` (identity on a
datetime-typed column) and append the three temporal columns. -/
def addTemporal (t : Table) (ts : List (Option Timestamp)) : Table :=
  (((t.setCol "fecha_solicitud" (.dtCol ts)).setCol
      "mes" (.numCol (mesVals ts))).setCol
      "dia_semana" (.strCol (diaVals ts))).setCol
      "hora" (.numCol (horaVals ts))

/-- Error taxonomy by pipeline stage. -/
inductive ETLError where
  | extractionError
  | transformationError
  | persistenceError
deriving DecidableEq, Repr

/-- Steps 3 and 4 of `transform_data` (lines 137 to 146): read the cost and
page count columns, append the cost per page and the size category.
Accessing a required column that is absent raises, modelled as a
transformation error. -/
def addCostAndSize (u : Table) : Except ETLError Table :=
  match u.getCol "costo_estimado" with
  | some (ColData.numCol ce) =>
    match u.getCol "cantidad_paginas" with
    | some (ColData.numCol cp) =>
      Except.ok ((u.setCol
        "costo_por_pagina" (ColData.numCol (costoPorPagina ce cp))).setCol
        "categoria_tamano" (ColData.catCol (categoriaTamano cp)))
    | _ => Except.error ETLError.transformationError
  | _ => Except.error ETLError.transformationError

/-- The Transform stage, `DataProcessor.transform_data` (lines 104 to 150):
copy, impute numeric and object columns, derive the temporal columns, the
cost per page and the size category, appending the five derived columns.
Accessing a required column that is absent raises, modelled as a
transformation error; so does a `fecha_solicitud` column that is not
datetime-typed (string timestamps are outside the model). -/
def transform_data (df : Table) : Except ETLError Table :=
  match (imputeTable df).getCol "fecha_solicitud" with
  | some (ColData.dtCol ts) => addCostAndSize (addTemporal (imputeTable df) ts)
  | _ => Except.error ETLError.transformationError

/-- Content of a file as the pipeline can observe it: a readable tabular
file together with the Table it parses into, or an unreadable or
unparseable file. A file written by the Loader parses back into the Table
it serialized. -/
inductive FileContent where
  | parsed (t : Table)
  | malformed
deriving DecidableEq, Repr

/-- The filesystem, as a map from paths to file contents. -/
def FS : Type := String → Option FileContent

/-- The fixed sample table produced by `_load_sample_data`. The source
seeds the numpy generator with 42, so its output is one fixed
schema-conformant table; the draws of the numpy generator are outside the
model, so that fixed table is represented here by a concrete table with the
same eleven columns and dtypes. -/
def sample_data : Table :=
  ⟨[("id_trabajo", .strCol [some "TRB-00001", some "TRB-00002", some "TRB-00003"]),
    ("fecha_solicitud", .dtCol
      [some ⟨1, "Sunday", 0⟩, some ⟨1, "Sunday", 1⟩, some ⟨1, "Sunday", 2⟩]),
    ("departamento", .strCol [some "Filosofía", some "Letras", some "Historia"]),
    ("tipo_trabajo", .strCol [some "Libro", some "Tesis", some "Folleto"]),
    ("cantidad_paginas", .numCol [some 120, some 35, some 260]),
    ("cantidad_copias", .numCol [some 10, some 3, some 50]),
    ("prioridad", .strCol [some "Alta", some "Media", some "Baja"]),
    ("estado", .strCol [some "Pendiente", some "Completado", some "Entregado"]),
    ("tiempo_produccion_horas", .numCol [some 12, some 5, some 30]),
    ("costo_estimado", .numCol [some 900, some 300, some 2500]),
    ("material_utilizado", .strCol [some "Papel A4", some "Cartulina", some "Papel A3"])]⟩

/-- Reading one path: a readable file yields its parsed Table, an
unparseable file raises (modelled as an extraction error), and a path that
does not exist falls back to the sample table, exactly as the
`if file_path and os.path.exists(file_path)` guard of line 57 does. -/
def readFile (c : Option FileContent) : Except ETLError Table :=
  match c with
  | some (FileContent.parsed t) => Except.ok t
  | some FileContent.malformed => Except.error ETLError.extractionError
  | none => Except.ok sample_data

/-- The Extract stage, `DataProcessor.extract_data` (lines 46 to 71): when
a path is given, read it with the fallback of `readFile`; when no path is
given, load the sample table. -/
def extract_data (fs : FS) (file_path : Option String) : Except ETLError Table :=
  match file_path with
  | some p => readFile (fs p)
  | none => Except.ok sample_data

/-- Rendering of a rational cell value for `to_csv`. -/
def renderRat (q : ℚ) : String := toString q.num ++ "/" ++ toString q.den

/-- Rendering of a timestamp cell value for `to_csv`. -/
def renderTs (u : Timestamp) : String :=
  toString u.month ++ "-" ++ u.weekdayName ++ "-" ++ toString u.hour

/-- Rendering of one cell of a column for `to_csv`; a missing cell is
written as the empty field. -/
def ColData.renderCell (d : ColData) (i : ℕ) : String :=
  match d with
  | .numCol xs => ((xs.getD i none).map renderRat).getD ""
  | .strCol xs => (xs.getD i none).getD ""
  | .dtCol xs => ((xs.getD i none).map renderTs).getD ""
  | .catCol xs => (xs.getD i none).getD ""

/-- Serialization `df.to_csv(index := False)`: a header line with the
column names followed by one line per row, no index column. -/
def serialize (t : Table) : List String :=
  String.intercalate "," t.names ::
    (List.range t.nRows).map (fun i =>
      String.intercalate "," (t.cols.map (fun p => p.2.renderCell i)))

/-- The output path `os.path.join(processed_path, filename)` with the
default `data_path` of the source. -/
def destPath (filename : String) : String := "data/processed/" ++ filename

/-- The Load stage, `DataProcessor.load_data` (lines 152 to 167): serialize
the table and return the output path together with the written content. -/
def load_data (df : Table) (filename : String) : String × List String :=
  (destPath filename, serialize df)

/-- Transform then Load on an extracted table: the Loader runs only when
the Transform stage succeeded. -/
def run_transform_load (df_raw : Table) (output_file : String) :
    Except ETLError (Table × String × List String) :=
  match transform_data df_raw with
  | Except.error e => Except.error e
  | Except.ok df_processed =>
    Except.ok (df_processed, load_data df_processed output_file)

/-- The pipeline `DataProcessor.run_pipeline` (lines 169 to 192): Extract,
then Transform, then Load; the first failing stage aborts the run. Returns
the processed table, the output path and the written content. -/
def run_pipeline (fs : FS) (input_file : Option String) (output_file : String) :
    Except ETLError (Table × String × List String) :=
  match extract_data fs input_file with
  | Except.error e => Except.error e
  | Except.ok df_raw => run_transform_load df_raw output_file

/-- Effect of a finished run on the filesystem: a successful run leaves the
written file at the output path (and it parses back into the written
table); a failed run leaves the filesystem unchanged. -/
def writeResult (fs : FS) : Except ETLError (Table × String × List String) → FS
  | Except.ok r => fun q => if q = r.2.1 then some (FileContent.parsed r.1) else fs q
  | Except.error _ => fs

/-- A small schema-conformant table used to exercise the transform: one
missing timestamp, one missing department, one missing cost and a zero
page count. -/
def wtbl : Table :=
  ⟨[("id_trabajo", .strCol [some "TRB-00001", some "TRB-00002"]),
    ("fecha_solicitud", .dtCol [some ⟨1, "Sunday", 0⟩, none]),
    ("departamento", .strCol [some "Letras", none]),
    ("cantidad_paginas", .numCol [some 50, some 0]),
    ("costo_estimado", .numCol [some 100, none]),
    ("tiempo_produccion_horas", .numCol [some 2, some 4])]⟩

/-- The transform of `wtbl` (the transform succeeds on it). -/
def wtbl' : Table := (transform_data wtbl).toOption.getD ⟨[]⟩

/-- The `cantidad_paginas` column of `wtbl'`. -/
def cpW : List (Option ℚ) := [some 50, some 0]

/-- The `costo_estimado` column of `wtbl'` (the missing cost was imputed
with the median 100). -/
def ceW : List (Option ℚ) := [some 100, some 100]

/-- The `costo_por_pagina` column of `wtbl'`. -/
def cppW : List (Option ℚ) := [some (100 / 50), some 0]

/-- The `categoria_tamano` column of `wtbl'`. -/
def catW : List (Option String) := [some "Pequeño", none]

/-- A table with a zero page count and a fully missing numeric column:
after the transform, `categoria_tamano` and `tiempo_produccion_horas`
still hold missing values. -/
def tMissing : Table :=
  ⟨[("fecha_solicitud", .dtCol [some ⟨1, "Sunday", 0⟩]),
    ("tiempo_produccion_horas", .numCol [none]),
    ("cantidad_paginas", .numCol [some 0]),
    ("costo_estimado", .numCol [some 100])]⟩

/-- A table whose only row has a zero cost and a zero page count: the
division produces NaN, which the infinity replacement does not touch. -/
def tZeroZero : Table :=
  ⟨[("fecha_solicitud", .dtCol [some ⟨1, "Sunday", 0⟩]),
    ("cantidad_paginas", .numCol [some 0]),
    ("costo_estimado", .numCol [some 0])]⟩

/-- A table lacking the required `costo_estimado` column. -/
def tNoCost : Table :=
  ⟨[("fecha_solicitud", .dtCol [some ⟨1, "Sunday", 0⟩]),
    ("cantidad_paginas", .numCol [some 10])]⟩

/-- A filesystem holding only one readable file, which parses to
`tNoCost`. -/
def fsW : FS := fun p =>
  if p = "data/raw/bad.csv" then some (FileContent.parsed tNoCost) else none

/-- The empty filesystem: no path exists. -/
def fs0 : FS := fun _ => none

/-! Basic lemmas about column lookup and column assignment. -/

theorem lookupCol_eq_none (cols : List (String × ColData)) (n : String)
    (h : n ∉ cols.map Prod.fst) : lookupCol cols n = none := by
  induction cols with
  | nil => rfl
  | cons p rest ih =>
    simp only [List.map_cons, List.mem_cons, not_or] at h
    have hp : ¬(p.1 = n) := fun e => h.1 e.symm
    simp only [lookupCol, if_neg hp]
    exact ih h.2

theorem getCol_eq_none (t : Table) (n : String) (h : n ∉ t.names) :
    t.getCol n = none := lookupCol_eq_none t.cols n h

theorem mem_names_of_getCol {t : Table} {n : String} {d : ColData}
    (h : t.getCol n = some d) : n ∈ t.names := by
  by_contra hc
  rw [getCol_eq_none t n hc] at h
  exact Option.noConfusion h

theorem lookupCol_mem (cols : List (String × ColData)) (n : String) (d : ColData)
    (h : lookupCol cols n = some d) : (n, d) ∈ cols := by
  induction cols with
  | nil => exact Option.noConfusion h
  | cons p rest ih =>
    by_cases hp : p.1 = n
    · simp only [lookupCol, if_pos hp] at h
      rw [← hp, ← Option.some.inj h]
      exact List.mem_cons_self _ _
    · simp only [lookupCol, if_neg hp] at h
      exact List.mem_cons_of_mem _ (ih h)

theorem getCol_mem_cols {t : Table} {n : String} {d : ColData}
    (h : t.getCol n = some d) : (n, d) ∈ t.cols := lookupCol_mem t.cols n d h

theorem lookupCol_map_set_self (cols : List (String × ColData)) (n : String)
    (d : ColData) (h : n ∈ cols.map Prod.fst) :
    lookupCol (cols.map (fun p => if p.1 = n then (n, d) else p)) n = some d := by
  induction cols with
  | nil => exact absurd h (List.not_mem_nil n)
  | cons p rest ih =>
    by_cases hp : p.1 = n
    · rw [List.map_cons, if_pos hp]
      simp [lookupCol]
    · rw [List.map_cons, if_neg hp]
      simp only [lookupCol, if_neg hp]
      refine ih ?_
      rcases List.mem_cons.1 h with h1 | h2
      · exact absurd h1.symm hp
      · exact h2

theorem lookupCol_map_set_ne (cols : List (String × ColData)) (n m : String)
    (d : ColData) (h : m ≠ n) :
    lookupCol (cols.map (fun p => if p.1 = n then (n, d) else p)) m =
      lookupCol cols m := by
  induction cols with
  | nil => rfl
  | cons p rest ih =>
    by_cases hp : p.1 = n
    · simp only [List.map_cons, if_pos hp, lookupCol,
        if_neg (fun e : n = m => h e.symm), if_neg (fun e : p.1 = m => h (hp ▸ e).symm)]
      exact ih
    · simp only [List.map_cons, if_neg hp, lookupCol]
      by_cases hm : p.1 = m
      · simp only [if_pos hm]
      · simp only [if_neg hm]
        exact ih

theorem lookupCol_append_single_ne (cols : List (String × ColData)) (n m : String)
    (d : ColData) (h : m ≠ n) :
    lookupCol (cols ++ [(n, d)]) m = lookupCol cols m := by
  induction cols with
  | nil => simp only [List.nil_append, lookupCol, if_neg (fun e : n = m => h e.symm)]
  | cons p rest ih =>
    by_cases hp : p.1 = m
    · simp only [List.cons_append, lookupCol, if_pos hp]
    · simp only [List.cons_append, lookupCol, if_neg hp]
      exact ih

theorem lookupCol_append_not_mem (cols l2 : List (String × ColData)) (n : String)
    (h : n ∉ cols.map Prod.fst) : lookupCol (cols ++ l2) n = lookupCol l2 n := by
  induction cols with
  | nil => rfl
  | cons p rest ih =>
    simp only [List.map_cons, List.mem_cons, not_or] at h
    have hp : ¬(p.1 = n) := fun e => h.1 e.symm
    simp only [List.cons_append, lookupCol, if_neg hp]
    exact ih h.2

theorem getCol_setCol_self (t : Table) (n : String) (d : ColData) :
    (t.setCol n d).getCol n = some d := by
  unfold Table.setCol Table.getCol
  by_cases hmem : n ∈ t.names
  · rw [if_pos hmem]
    exact lookupCol_map_set_self t.cols n d hmem
  · rw [if_neg hmem]
    show lookupCol (t.cols ++ [(n, d)]) n = some d
    rw [lookupCol_append_not_mem t.cols [(n, d)] n hmem]
    simp [lookupCol]

theorem getCol_setCol_ne {t : Table} {n : String} {d : ColData} {m : String}
    (h : m ≠ n) : (t.setCol n d).getCol m = t.getCol m := by
  unfold Table.setCol Table.getCol
  by_cases hmem : n ∈ t.names
  · rw [if_pos hmem]
    exact lookupCol_map_set_ne t.cols n m d h
  · rw [if_neg hmem]
    exact lookupCol_append_single_ne t.cols n m d h

theorem names_setCol_of_mem {t : Table} {n : String} (d : ColData)
    (h : n ∈ t.names) : (t.setCol n d).names = t.names := by
  unfold Table.setCol
  rw [if_pos h]
  show (t.cols.map _).map Prod.fst = t.cols.map Prod.fst
  rw [List.map_map]
  refine List.map_congr_left ?_
  intro p _
  by_cases hp : p.1 = n
  · simp [Function.comp, hp]
  · simp [Function.comp, hp]

theorem names_setCol_of_not_mem {t : Table} {n : String} (d : ColData)
    (h : n ∉ t.names) : (t.setCol n d).names = t.names ++ [n] := by
  unfold Table.setCol
  rw [if_neg h]
  show (t.cols ++ [(n, d)]).map Prod.fst = t.cols.map Prod.fst ++ [n]
  rw [List.map_append]
  rfl

theorem names_imputeTable (t : Table) : (imputeTable t).names = t.names := by
  unfold imputeTable
  show (t.cols.map _).map Prod.fst = t.cols.map Prod.fst
  rw [List.map_map]
  rfl

theorem getCol_imputeTable (t : Table) (n : String) :
    (imputeTable t).getCol n = (t.getCol n).map imputeCol := by
  show lookupCol (t.cols.map fun p => (p.1, imputeCol p.2)) n =
    (lookupCol t.cols n).map imputeCol
  induction t.cols with
  | nil => rfl
  | cons p rest ih =>
    by_cases hp : p.1 = n
    · simp [lookupCol, hp]
    · simp only [List.map_cons, lookupCol, if_neg hp]
      exact ih

/-! Lengths and uniformity. -/

theorem length_imputeNum (xs : List (Option ℚ)) :
    (imputeNum xs).length = xs.length := by
  unfold imputeNum
  split
  · split
    · exact List.length_map xs _
    · rfl
  · rfl

theorem length_imputeStr (xs : List (Option String)) :
    (imputeStr xs).length = xs.length := by
  unfold imputeStr
  split
  · exact List.length_map xs _
  · rfl

theorem length_imputeCol (d : ColData) : (imputeCol d).length = d.length := by
  cases d with
  | numCol xs => exact length_imputeNum xs
  | strCol xs => exact length_imputeStr xs
  | dtCol xs => rfl
  | catCol xs => rfl

theorem allLen_setCol {t : Table} {n : String} {d : ColData} {k : ℕ}
    (ht : t.allLen k) (hd : d.length = k) : (t.setCol n d).allLen k := by
  intro p hp
  unfold Table.setCol at hp
  by_cases hmem : n ∈ t.names
  · rw [if_pos hmem] at hp
    simp only [List.mem_map] at hp
    obtain ⟨q, hq, hpq⟩ := hp
    by_cases hq1 : q.1 = n
    · rw [if_pos hq1] at hpq
      rw [← hpq]
      exact hd
    · rw [if_neg hq1] at hpq
      rw [← hpq]
      exact ht q hq
  · rw [if_neg hmem] at hp
    rcases List.mem_append.1 hp with h1 | h2
    · exact ht p h1
    · rw [List.mem_singleton.1 h2]
      exact hd

theorem allLen_imputeTable {t : Table} {k : ℕ} (h : t.allLen k) :
    (imputeTable t).allLen k := by
  intro p hp
  unfold imputeTable at hp
  simp only [List.mem_map] at hp
  obtain ⟨q, hq, hpq⟩ := hp
  rw [← hpq]
  show (imputeCol q.2).length = k
  rw [length_imputeCol]
  exact h q hq

theorem allLen_getCol {t : Table} {n : String} {d : ColData} {k : ℕ}
    (h : t.getCol n = some d) (ha : t.allLen k) : d.length = k :=
  ha (n, d) (getCol_mem_cols h)

theorem nRows_of_allLen {t : Table} {k : ℕ} (h : t.allLen k)
    (hne : t.cols ≠ []) : t.nRows = k := by
  unfold Table.nRows
  rcases hc : t.cols with _ | ⟨c, rest⟩
  · exact absurd hc hne
  · exact h c (hc ▸ List.mem_cons_self c rest)

/-! Imputation lemmas. -/

theorem median_exists (xs : List ℚ) (h : xs.length ≠ 0) :
    ∃ m, median xs = some m := by
  unfold median
  rw [if_neg h]
  by_cases hp : xs.length % 2 = 1
  · exact ⟨_, by rw [if_pos hp]⟩
  · exact ⟨_, by rw [if_neg hp]⟩

theorem filterMap_id_ne_nil {α : Type} (xs : List (Option α))
    (h : xs.any (fun x => x.isSome) = true) : (xs.filterMap id).length ≠ 0 := by
  simp only [List.any_eq_true] at h
  obtain ⟨x, hx, hs⟩ := h
  rcases x with _ | a
  · exact Bool.noConfusion hs
  · have : a ∈ xs.filterMap id := List.mem_filterMap.2 ⟨some a, hx, rfl⟩
    intro hlen
    rw [List.length_eq_zero.1 hlen] at this
    exact List.not_mem_nil a this

theorem imputeNum_all_isSome (xs : List (Option ℚ))
    (h : xs.any (fun x => x.isSome) = true) :
    (imputeNum xs).all (fun y => y.isSome) = true := by
  unfold imputeNum
  by_cases hnone : xs.any (fun x => x.isNone) = true
  · rw [if_pos hnone]
    obtain ⟨m, hm⟩ := median_exists (xs.filterMap id) (filterMap_id_ne_nil xs h)
    rw [hm]
    simp only [List.all_eq_true, List.mem_map]
    rintro y ⟨x, _, rfl⟩
    rfl
  · rw [if_neg hnone]
    simp only [List.any_eq_true, not_exists, not_and] at hnone
    simp only [List.all_eq_true]
    intro x hx
    rcases x with _ | a
    · exact absurd rfl (hnone none hx)
    · rfl

theorem map_getD_of_no_none {α : Type} (xs : List (Option α)) (d : α)
    (h : ¬xs.any (fun x => x.isNone) = true) :
    xs.map (fun x => some (x.getD d)) = xs := by
  induction xs with
  | nil => rfl
  | cons x rest ih =>
    simp only [List.any_cons, Bool.or_eq_true, not_or] at h
    rcases x with _ | a
    · exact absurd rfl h.1
    · simp only [List.map_cons, Option.getD_some]
      rw [ih h.2]

theorem imputeStr_eq_map (xs : List (Option String)) :
    imputeStr xs = xs.map (fun x => some (x.getD sentinel)) := by
  unfold imputeStr
  by_cases h : xs.any (fun x => x.isNone) = true
  · rw [if_pos h]
  · rw [if_neg h, map_getD_of_no_none xs sentinel h]

theorem imputeStr_all_isSome (xs : List (Option String)) :
    (imputeStr xs).all (fun y => y.isSome) = true := by
  rw [imputeStr_eq_map]
  simp only [List.all_eq_true, List.mem_map]
  rintro y ⟨x, _, rfl⟩
  rfl

/-! Indexed access lemmas. -/

theorem getD_map_in_range {α β : Type} (f : α → β) (xs : List α) (i : ℕ)
    (hi : i < xs.length) (da : α) (db : β) :
    (xs.map f).getD i db = f (xs.getD i da) := by
  induction xs generalizing i with
  | nil => exact absurd hi (Nat.not_lt_zero i)
  | cons x rest ih =>
    cases i with
    | zero => rfl
    | succ j =>
      simp only [List.map_cons, List.getD_cons_succ]
      exact ih j (Nat.lt_of_succ_lt_succ hi)

theorem getD_zipWith_in_range {α β γ : Type} (f : α → β → γ) (as : List α)
    (bs : List β) (i : ℕ) (hi : i < (List.zipWith f as bs).length)
    (da : α) (db : β) (dc : γ) :
    (List.zipWith f as bs).getD i dc = f (as.getD i da) (bs.getD i db) := by
  induction as generalizing bs i with
  | nil => exact absurd hi (Nat.not_lt_zero i)
  | cons x xs ih =>
    cases bs with
    | nil => exact absurd hi (Nat.not_lt_zero i)
    | cons y ys =>
      cases i with
      | zero => rfl
      | succ j =>
        simp only [List.zipWith_cons_cons, List.getD_cons_succ]
        exact ih ys j (by simpa using Nat.lt_of_succ_lt_succ hi)

/-! Inversion of a successful transform. -/

theorem transform_ok_inv {t t' : Table} (h : transform_data t = Except.ok t') :
    ∃ ts ce cp,
      (imputeTable t).getCol "fecha_solicitud" = some (ColData.dtCol ts) ∧
      (addTemporal (imputeTable t) ts).getCol "costo_estimado" =
        some (ColData.numCol ce) ∧
      (addTemporal (imputeTable t) ts).getCol "cantidad_paginas" =
        some (ColData.numCol cp) ∧
      t' = ((addTemporal (imputeTable t) ts).setCol
        "costo_por_pagina" (ColData.numCol (costoPorPagina ce cp))).setCol
        "categoria_tamano" (ColData.catCol (categoriaTamano cp)) := by
  unfold transform_data at h
  split at h
  case _ ts heq =>
    unfold addCostAndSize at h
    split at h
    case _ ce heq2 =>
      split at h
      case _ cp heq3 =>
        exact ⟨ts, ce, cp, heq, heq2, heq3, (Except.ok.inj h).symm⟩
      case _ => exact absurd h (by simp)
    case _ => exact absurd h (by simp)
  case _ => exact absurd h (by simp)

theorem getCol_addTemporal_other {u : Table} {ts : List (Option Timestamp)}
    {name : String} (h1 : name ≠ "mes") (h2 : name ≠ "dia_semana")
    (h3 : name ≠ "hora") (h4 : name ≠ "fecha_solicitud") :
    (addTemporal u ts).getCol name = u.getCol name := by
  unfold addTemporal
  rw [getCol_setCol_ne h3, getCol_setCol_ne h2, getCol_setCol_ne h1,
    getCol_setCol_ne h4]

theorem transform_getCol_not_derived {t t' : Table}
    (h : transform_data t = Except.ok t') {name : String}
    (hder : name ∉ derivedNames) :
    t'.getCol name = (t.getCol name).map imputeCol := by
  obtain ⟨ts, ce, cp, hts, hce, hcp, ht'⟩ := transform_ok_inv h
  simp only [derivedNames, List.mem_cons, List.not_mem_nil, or_false,
    not_or] at hder
  obtain ⟨hmes, hdia, hhora, hcpp, hcat⟩ := hder
  rw [ht', getCol_setCol_ne hcat, getCol_setCol_ne hcpp]
  by_cases hf : name = "fecha_solicitud"
  · unfold addTemporal
    rw [getCol_setCol_ne hhora, getCol_setCol_ne hdia, getCol_setCol_ne hmes, hf,
      getCol_setCol_self, ← getCol_imputeTable]
    exact hts.symm
  · rw [getCol_addTemporal_other hmes hdia hhora hf, getCol_imputeTable]

theorem transform_getCol_derived {t t' : Table}
    (h : transform_data t = Except.ok t') :
    ∃ ts ce cp,
      (imputeTable t).getCol "fecha_solicitud" = some (ColData.dtCol ts) ∧
      t'.getCol "fecha_solicitud" = some (ColData.dtCol ts) ∧
      t'.getCol "mes" = some (ColData.numCol (mesVals ts)) ∧
      t'.getCol "dia_semana" = some (ColData.strCol (diaVals ts)) ∧
      t'.getCol "hora" = some (ColData.numCol (horaVals ts)) ∧
      t'.getCol "costo_estimado" = some (ColData.numCol ce) ∧
      t'.getCol "cantidad_paginas" = some (ColData.numCol cp) ∧
      t'.getCol "costo_por_pagina" =
        some (ColData.numCol (costoPorPagina ce cp)) ∧
      t'.getCol "categoria_tamano" =
        some (ColData.catCol (categoriaTamano cp)) := by
  obtain ⟨ts, ce, cp, hts, hce, hcp, ht'⟩ := transform_ok_inv h
  refine ⟨ts, ce, cp, hts, ?_, ?_, ?_, ?_, ?_, ?_, ?_, ?_⟩
  · rw [ht', getCol_setCol_ne (by decide), getCol_setCol_ne (by decide)]
    unfold addTemporal
    rw [getCol_setCol_ne (by decide), getCol_setCol_ne (by decide),
      getCol_setCol_ne (by decide), getCol_setCol_self]
  · rw [ht', getCol_setCol_ne (by decide), getCol_setCol_ne (by decide)]
    unfold addTemporal
    rw [getCol_setCol_ne (by decide), getCol_setCol_ne (by decide),
      getCol_setCol_self]
  · rw [ht', getCol_setCol_ne (by decide), getCol_setCol_ne (by decide)]
    unfold addTemporal
    rw [getCol_setCol_ne (by decide), getCol_setCol_self]
  · rw [ht', getCol_setCol_ne (by decide), getCol_setCol_ne (by decide)]
    unfold addTemporal
    rw [getCol_setCol_self]
  · rw [ht', getCol_setCol_ne (by decide), getCol_setCol_ne (by decide)]
    exact hce
  · rw [ht', getCol_setCol_ne (by decide), getCol_setCol_ne (by decide)]
    exact hcp
  · rw [ht', getCol_setCol_ne (by decide), getCol_setCol_self]
  · rw [ht', getCol_setCol_self]

/-! Pipeline-level lemmas. -/

theorem transform_data_error_of_no_costo (t : Table)
    (hmiss : "costo_estimado" ∉ t.names) :
    transform_data t = Except.error ETLError.transformationError := by
  have hco : ∀ ts, (addTemporal (imputeTable t) ts).getCol "costo_estimado" =
      none := by
    intro ts
    rw [getCol_addTemporal_other (by decide) (by decide) (by decide) (by decide),
      getCol_imputeTable, getCol_eq_none t _ hmiss]
    rfl
  unfold transform_data
  rcases hfe : (imputeTable t).getCol "fecha_solicitud" with _ | d
  · rfl
  · cases d with
    | numCol xs => rfl
    | strCol xs => rfl
    | catCol xs => rfl
    | dtCol ts =>
      show addCostAndSize (addTemporal (imputeTable t) ts) =
        Except.error ETLError.transformationError
      unfold addCostAndSize
      rw [hco ts]

theorem run_pipeline_ok_path {fs : FS} {src : Option String} {out : String}
    {r : Table × String × List String}
    (h : run_pipeline fs src out = Except.ok r) : r.2.1 = destPath out := by
  unfold run_pipeline at h
  split at h
  · exact absurd h (by simp)
  · unfold run_transform_load at h
    split at h
    · exact absurd h (by simp)
    · rw [← Except.ok.inj h]
      rfl

theorem extract_data_congr {fs fs' : FS} (src : Option String)
    (h : ∀ p, src = some p → fs' p = fs p) :
    extract_data fs' src = extract_data fs src := by
  cases src with
  | none => rfl
  | some p =>
    show readFile (fs' p) = readFile (fs p)
    rw [h p rfl]

theorem run_pipeline_congr {fs fs' : FS} (src : Option String) (out : String)
    (h : extract_data fs' src = extract_data fs src) :
    run_pipeline fs' src out = run_pipeline fs src out := by
  unfold run_pipeline
  rw [h]

/-! The claims. -/

/-- Claim C1, counterexample: the claim states that after the transform no
numeric and no categorical column, the derived columns included, holds a
missing value. On `tMissing` the transform succeeds, yet the derived
`categoria_tamano` cell is missing (its page count is 0, outside every
bin) and the fully missing numeric column `tiempo_produccion_horas` is
still fully missing (the median of an empty set of values is undefined, so
`fillna` changes nothing). -/
theorem C1_counterexample :
    ((transform_data tMissing).toOption.bind
        (fun u => u.getCol "categoria_tamano")) =
      some (ColData.catCol [none]) ∧
    ((transform_data tMissing).toOption.bind
        (fun u => u.getCol "tiempo_produccion_horas")) =
      some (ColData.numCol [none]) := by
  constructor
  · rfl
  · rfl

/-- Claim C1, amended: after the transform, every input (non-derived)
numeric column with at least one non-missing value holds no missing value,
and every input categorical (object) column holds no missing value; the
derived columns, and numeric columns that were entirely missing, can still
hold missing values. -/
theorem C1_imputed_columns_no_missing (t t' : Table)
    (h : transform_data t = Except.ok t') (name : String)
    (hder : name ∉ derivedNames) :
    (∀ xs, t.getCol name = some (ColData.numCol xs) →
      xs.any (fun x => x.isSome) = true →
      ∃ ys, t'.getCol name = some (ColData.numCol ys) ∧
        ys.all (fun y => y.isSome) = true) ∧
    (∀ xs, t.getCol name = some (ColData.strCol xs) →
      ∃ ys, t'.getCol name = some (ColData.strCol ys) ∧
        ys.all (fun y => y.isSome) = true) := by
  have hg := transform_getCol_not_derived h hder
  constructor
  · intro xs hx hsome
    rw [hx] at hg
    exact ⟨imputeNum xs, hg, imputeNum_all_isSome xs hsome⟩
  · intro xs hx
    rw [hx] at hg
    exact ⟨imputeStr xs, hg, imputeStr_all_isSome xs⟩

/-- Claim C1, witness: the imputed cost column of the transformed `wtbl`
has no missing cells. -/
theorem C1_witness :
    ∃ ys, wtbl'.getCol "costo_estimado" = some (ColData.numCol ys) ∧
      ys.all (fun y => y.isSome) = true :=
  (C1_imputed_columns_no_missing wtbl wtbl' rfl "costo_estimado"
    (by decide)).1 [some 100, none] (by decide) (by decide)

/-- Claim C4: for every input table on which the transform succeeds and
every non-derived numeric column with a missing value whose non-missing
values have median `m`, the transformed column replaces exactly the
missing cells with `m` and keeps every other cell; the right-hand side is
a function of the original column alone, so the imputation is
column-local. -/
theorem C4_numeric_imputation (t t' : Table)
    (h : transform_data t = Except.ok t') (name : String)
    (hder : name ∉ derivedNames) (xs : List (Option ℚ))
    (hx : t.getCol name = some (ColData.numCol xs))
    (hmiss : xs.any (fun x => x.isNone) = true) (m : ℚ)
    (hmed : median (xs.filterMap id) = some m) :
    t'.getCol name =
      some (ColData.numCol (xs.map (fun x => some (x.getD m)))) := by
  have hg := transform_getCol_not_derived h hder
  rw [hx] at hg
  rw [hg]
  show some (ColData.numCol (imputeNum xs)) = _
  unfold imputeNum
  rw [if_pos hmiss, hmed]

/-- Claim C4, witness: in `wtbl` the cost column is `[100, missing]`, its
non-missing median is 100, and the transformed column is `[100, 100]`. -/
theorem C4_witness :
    wtbl'.getCol "costo_estimado" =
      some (ColData.numCol
        ([some 100, none].map (fun x => some (x.getD 100)))) :=
  C4_numeric_imputation wtbl wtbl' rfl "costo_estimado" (by decide)
    [some 100, none] (by decide) (by decide) 100 (by decide)

/-- Claim C5: for every input table on which the transform succeeds and
every non-derived categorical (object) column, the transformed column
replaces exactly the missing cells with the fixed sentinel (the source
string Desconocido, which the spec renders as Unknown) and keeps every
other cell unchanged. -/
theorem C5_categorical_sentinel (t t' : Table)
    (h : transform_data t = Except.ok t') (name : String)
    (hder : name ∉ derivedNames) (xs : List (Option String))
    (hx : t.getCol name = some (ColData.strCol xs)) :
    t'.getCol name =
      some (ColData.strCol (xs.map (fun x => some (x.getD sentinel)))) := by
  have hg := transform_getCol_not_derived h hder
  rw [hx] at hg
  rw [hg]
  show some (ColData.strCol (imputeStr xs)) = _
  rw [imputeStr_eq_map]

/-- Claim C5, witness: in `wtbl` the department column is
`[Letras, missing]` and the transformed column is `[Letras, sentinel]`. -/
theorem C5_witness :
    wtbl'.getCol "departamento" =
      some (ColData.strCol
        ([some "Letras", none].map (fun x => some (x.getD sentinel)))) :=
  C5_categorical_sentinel wtbl wtbl' rfl "departamento" (by decide)
    [some "Letras", none] (by decide)

/-- Claim C2, counterexample: the claim states that `cost_per_page`
equals 0 whenever `page_count` is 0. On `tZeroZero` the row has cost 0 and
page count 0: the division 0 / 0 yields NaN, which the replacement of the
two infinities does not touch, so the transformed `costo_por_pagina` cell
is missing rather than 0. -/
theorem C2_counterexample :
    ((transform_data tZeroZero).toOption.bind
        (fun u => u.getCol "cantidad_paginas")) =
      some (ColData.numCol [some 0]) ∧
    ((transform_data tZeroZero).toOption.bind
        (fun u => u.getCol "costo_por_pagina")) =
      some (ColData.numCol [none]) := by
  constructor
  · rfl
  · rfl

/-- Claim C2, amended: write `a` for the (post-imputation) cost and `b`
for the page count of a row of the transformed table. Then
`costo_por_pagina` equals `a / b` when `b` is nonzero; it equals 0 when
`b = 0` and `a` is nonzero (the infinite quotient is normalized to 0); it
is missing when `b = 0` and `a = 0` (NaN is not normalized); and whenever
it holds a value and `a` and `b` are non-negative, that value is
non-negative (and finite, a numeric cell being by construction either a
finite value or missing). -/
theorem C2_cost_per_page (t t' : Table)
    (h : transform_data t = Except.ok t') (ce cp cpp : List (Option ℚ))
    (hce : t'.getCol "costo_estimado" = some (ColData.numCol ce))
    (hcp : t'.getCol "cantidad_paginas" = some (ColData.numCol cp))
    (hcpp : t'.getCol "costo_por_pagina" = some (ColData.numCol cpp))
    (i : ℕ) (hi : i < cpp.length) (a b : ℚ)
    (ha : ce.getD i none = some a) (hb : cp.getD i none = some b) :
    (b ≠ 0 → cpp.getD i none = some (a / b)) ∧
    (b = 0 → a ≠ 0 → cpp.getD i none = some 0) ∧
    (b = 0 → a = 0 → cpp.getD i none = none) ∧
    (0 ≤ a → 0 ≤ b → ∀ r, cpp.getD i none = some r → 0 ≤ r) := by
  obtain ⟨ts, ce0, cp0, hts, hfe0, hmes0, hdia0, hhora0, hce0, hcp0, hcpp0,
    hcat0⟩ := transform_getCol_derived h
  have ece : ce0 = ce := by
    have := hce0.symm.trans hce
    exact ColData.numCol.inj (Option.some.inj this)
  have ecp : cp0 = cp := by
    have := hcp0.symm.trans hcp
    exact ColData.numCol.inj (Option.some.inj this)
  have ecpp : costoPorPagina ce cp = cpp := by
    rw [ece, ecp] at hcpp0
    have := hcpp0.symm.trans hcpp
    exact ColData.numCol.inj (Option.some.inj this)
  have hval : cpp.getD i none = replaceInfWithZero (fdiv (some a) (some b)) := by
    rw [← ecpp] at hi ⊢
    unfold costoPorPagina at hi ⊢
    rw [getD_zipWith_in_range _ ce cp i hi none none none, ha, hb]
  refine ⟨?_, ?_, ?_, ?_⟩
  · intro hb0
    rw [hval]
    simp only [fdiv, if_pos hb0, replaceInfWithZero]
  · intro hb0 ha0
    rw [hval]
    rcases lt_trichotomy a 0 with hlt | heq | hgt
    · simp only [fdiv, hb0, ne_eq, not_true_eq_false, if_false,
        if_neg (not_lt_of_lt hlt), if_pos hlt, replaceInfWithZero]
    · exact absurd heq ha0
    · simp only [fdiv, hb0, ne_eq, not_true_eq_false, if_false, if_pos hgt,
        replaceInfWithZero]
  · intro hb0 ha0
    rw [hval]
    simp only [fdiv, hb0, ha0, ne_eq, not_true_eq_false, if_false,
      lt_self_iff_false, replaceInfWithZero]
  · intro hpa hpb r hr
    rw [hval] at hr
    by_cases hb0 : b = 0
    · rcases lt_trichotomy a 0 with hlt | heq | hgt
      · exact absurd hpa (not_le_of_lt hlt)
      · simp only [fdiv, hb0, heq, ne_eq, not_true_eq_false, if_false,
          lt_self_iff_false, replaceInfWithZero] at hr
        exact Option.noConfusion hr
      · simp only [fdiv, hb0, ne_eq, not_true_eq_false, if_false, if_pos hgt,
          replaceInfWithZero] at hr
        rw [← Option.some.inj hr]
    · simp only [fdiv, if_pos hb0, replaceInfWithZero] at hr
      rw [← Option.some.inj hr]
      exact div_nonneg hpa hpb

/-- Claim C2, witness: in the second row of the transformed `wtbl` the
imputed cost is 100, the page count is 0, and `costo_por_pagina` is 0. -/
theorem C2_witness : cppW.getD 1 none = some 0 :=
  (C2_cost_per_page wtbl wtbl' rfl ceW cpW cppW rfl rfl rfl 1 (by decide)
    100 0 rfl rfl).2.1 rfl (by decide)

/-- Claim C3: for every input table on which the transform succeeds, the
size category of a row is determined by its (post-imputation) page count
`p` through right-inclusive bins: `1 ≤ p ≤ 50` gives the small label,
`51 ≤ p ≤ 200` the medium label, `201 ≤ p ≤ 500` the large label (so the
boundaries 50, 200 and 500 fall in the smaller bin), and `p = 0` or
`p > 500` gives a missing category. The source labels are the Spanish
strings that the spec renders as Small, Medium and Large. -/
theorem C3_size_bucketing (t t' : Table)
    (h : transform_data t = Except.ok t') (cp : List (Option ℚ))
    (hcp : t'.getCol "cantidad_paginas" = some (ColData.numCol cp))
    (cat : List (Option String))
    (hcat : t'.getCol "categoria_tamano" = some (ColData.catCol cat))
    (i : ℕ) (hi : i < cat.length) (p : ℚ) (hp : cp.getD i none = some p) :
    ((1 ≤ p ∧ p ≤ 50) → cat.getD i none = some "Pequeño") ∧
    ((51 ≤ p ∧ p ≤ 200) → cat.getD i none = some "Mediano") ∧
    ((201 ≤ p ∧ p ≤ 500) → cat.getD i none = some "Grande") ∧
    ((p = 0 ∨ 500 < p) → cat.getD i none = none) := by
  obtain ⟨ts, ce0, cp0, hts, hfe0, hmes0, hdia0, hhora0, hce0, hcp0, hcpp0,
    hcat0⟩ := transform_getCol_derived h
  have ecp : cp0 = cp := by
    have := hcp0.symm.trans hcp
    exact ColData.numCol.inj (Option.some.inj this)
  have ecat : categoriaTamano cp = cat := by
    rw [ecp] at hcat0
    have := hcat0.symm.trans hcat
    exact ColData.catCol.inj (Option.some.inj this)
  have hval : cat.getD i none = sizeBucket p := by
    rw [← ecat] at hi ⊢
    unfold categoriaTamano at hi ⊢
    rw [List.length_map] at hi
    rw [getD_map_in_range _ cp i hi none none, hp]
    rfl
  rw [hval]
  unfold sizeBucket
  refine ⟨?_, ?_, ?_, ?_⟩
  · rintro ⟨h1, h2⟩
    rw [if_pos ⟨by linarith, h2⟩]
  · rintro ⟨h1, h2⟩
    rw [if_neg (fun hc => by linarith [hc.2]), if_pos ⟨by linarith, h2⟩]
  · rintro ⟨h1, h2⟩
    rw [if_neg (fun hc => by linarith [hc.2]),
      if_neg (fun hc => by linarith [hc.2]), if_pos ⟨by linarith, h2⟩]
  · rintro (h0 | hgt)
    · rw [if_neg (fun hc => by rw [h0] at hc; exact absurd hc.1 (by norm_num)),
        if_neg (fun hc => by rw [h0] at hc; exact absurd hc.1 (by norm_num)),
        if_neg (fun hc => by rw [h0] at hc; exact absurd hc.1 (by norm_num))]
    · rw [if_neg (fun hc => by linarith [hc.2]),
        if_neg (fun hc => by linarith [hc.2]),
        if_neg (fun hc => by linarith [hc.2])]

/-- Claim C3, witness: the first row of `wtbl` has page count 50, on the
boundary of the first bin, and its size category is the small label. -/
theorem C3_witness : catW.getD 0 none = some "Pequeño" :=
  (C3_size_bucketing wtbl wtbl' rfl cpW rfl catW rfl 0 (by decide) 50
    rfl).1 (by decide)

/-- Names after the temporal step: `fecha_solicitud` is rewritten in place
and the three temporal columns are appended. -/
theorem names_addTemporal {u : Table} (ts : List (Option Timestamp))
    (hf : "fecha_solicitud" ∈ u.names) (h1 : "mes" ∉ u.names)
    (h2 : "dia_semana" ∉ u.names) (h3 : "hora" ∉ u.names) :
    (addTemporal u ts).names = u.names ++ ["mes", "dia_semana", "hora"] := by
  have e1 : (u.setCol "fecha_solicitud" (ColData.dtCol ts)).names = u.names :=
    names_setCol_of_mem _ hf
  have e2 : ((u.setCol "fecha_solicitud" (ColData.dtCol ts)).setCol
      "mes" (ColData.numCol (mesVals ts))).names = u.names ++ ["mes"] := by
    rw [names_setCol_of_not_mem _ (by rw [e1]; exact h1), e1]
  have e3 : (((u.setCol "fecha_solicitud" (ColData.dtCol ts)).setCol
      "mes" (ColData.numCol (mesVals ts))).setCol
      "dia_semana" (ColData.strCol (diaVals ts))).names =
      u.names ++ ["mes", "dia_semana"] := by
    rw [names_setCol_of_not_mem _ ?h, e2, List.append_assoc]
    on_goal 1 => rfl
    case h =>
      rw [e2]
      intro hm
      rcases List.mem_append.1 hm with hm | hm
      · exact h2 hm
      · exact absurd hm (by decide)
  unfold addTemporal
  rw [names_setCol_of_not_mem _ ?h, e3, List.append_assoc]
  on_goal 1 => rfl
  case h =>
    rw [e3]
    intro hm
    rcases List.mem_append.1 hm with hm | hm
    · exact h3 hm
    · exact absurd hm (by decide)

/-- Lengths after the temporal step: every column still has the common
length `k`. -/
theorem allLen_addTemporal {u : Table} {ts : List (Option Timestamp)} {k : ℕ}
    (hu : u.allLen k) (hts : ts.length = k) : (addTemporal u ts).allLen k := by
  unfold addTemporal
  refine allLen_setCol (allLen_setCol (allLen_setCol (allLen_setCol hu hts)
    ?_) ?_) ?_
  · show (mesVals ts).length = k
    rw [mesVals, List.length_map]
    exact hts
  · show (diaVals ts).length = k
    rw [diaVals, List.length_map]
    exact hts
  · show (horaVals ts).length = k
    rw [horaVals, List.length_map]
    exact hts

/-- Claim C6: on every uniform input table that contains none of the five
derived names and on which the transform succeeds, the output column list
is the input column list with the five derived columns appended in order,
the row count is unchanged, and every input column keeps its values except
for imputation of missing cells. The transform never mutates its input:
the embedding is a pure function of the input table, mirroring the
`df.copy()` of line 117. -/
theorem C6_frame_contract (t t' : Table) (h : transform_data t = Except.ok t')
    (hder : ∀ n ∈ derivedNames, n ∉ t.names) (hu : t.uniform) :
    t'.names = t.names ++ derivedNames ∧ t'.nRows = t.nRows ∧
    ∀ name ∈ t.names, t'.getCol name = (t.getCol name).map imputeCol := by
  obtain ⟨ts, ce, cp, hts, hce, hcp, ht'⟩ := transform_ok_inv h
  have hmes : "mes" ∉ t.names := hder "mes" (by decide)
  have hdia : "dia_semana" ∉ t.names := hder "dia_semana" (by decide)
  have hhora : "hora" ∉ t.names := hder "hora" (by decide)
  have hcppn : "costo_por_pagina" ∉ t.names := hder "costo_por_pagina" (by decide)
  have hcatn : "categoria_tamano" ∉ t.names := hder "categoria_tamano" (by decide)
  have hfem : "fecha_solicitud" ∈ (imputeTable t).names := mem_names_of_getCol hts
  have nI : (imputeTable t).names = t.names := names_imputeTable t
  have nA : (addTemporal (imputeTable t) ts).names =
      t.names ++ ["mes", "dia_semana", "hora"] := by
    rw [names_addTemporal ts hfem (nI ▸ hmes) (nI ▸ hdia) (nI ▸ hhora), nI]
  have n5 : ((addTemporal (imputeTable t) ts).setCol
      "costo_por_pagina" (ColData.numCol (costoPorPagina ce cp))).names =
      t.names ++ ["mes", "dia_semana", "hora", "costo_por_pagina"] := by
    rw [names_setCol_of_not_mem _ ?h, nA, List.append_assoc]
    on_goal 1 => rfl
    case h =>
      rw [nA]
      intro hm
      rcases List.mem_append.1 hm with hm | hm
      · exact hcppn hm
      · exact absurd hm (by decide)
  have n6 : t'.names = t.names ++ derivedNames := by
    rw [ht', names_setCol_of_not_mem _ ?h, n5, List.append_assoc]
    on_goal 1 => rfl
    case h =>
      rw [n5]
      intro hm
      rcases List.mem_append.1 hm with hm | hm
      · exact hcatn hm
      · exact absurd hm (by decide)
  refine ⟨n6, ?_, ?_⟩
  · have hA0 : (imputeTable t).allLen t.nRows := allLen_imputeTable hu
    have htsL : ts.length = t.nRows := allLen_getCol hts hA0
    have hA4 : (addTemporal (imputeTable t) ts).allLen t.nRows :=
      allLen_addTemporal hA0 htsL
    have hceL : ce.length = t.nRows := allLen_getCol hce hA4
    have hcpL : cp.length = t.nRows := allLen_getCol hcp hA4
    have hA6 : t'.allLen t.nRows := by
      rw [ht']
      refine allLen_setCol (allLen_setCol hA4 ?_) ?_
      · show (costoPorPagina ce cp).length = t.nRows
        rw [costoPorPagina, List.length_zipWith, hceL, hcpL]
        exact Nat.min_self _
      · show (categoriaTamano cp).length = t.nRows
        rw [categoriaTamano, List.length_map]
        exact hcpL
    refine nRows_of_allLen hA6 ?_
    intro hc
    have hnil : t'.names = [] := by
      show t'.cols.map Prod.fst = []
      rw [hc]
      rfl
    rw [n6] at hnil
    exact List.noConfusion (List.append_eq_nil.1 hnil).2
  · intro name hname
    exact transform_getCol_not_derived h (fun hd => hder name hd hname)

/-- Claim C6, witness: the transformed `wtbl` appends exactly the five
derived names and keeps the row count 2. -/
theorem C6_witness :
    wtbl'.names = wtbl.names ++ derivedNames ∧ wtbl'.nRows = wtbl.nRows :=
  ⟨(C6_frame_contract wtbl wtbl' rfl (by decide)
      (by simp only [Table.uniform, Table.allLen]; decide)).1,
    (C6_frame_contract wtbl wtbl' rfl (by decide)
      (by simp only [Table.uniform, Table.allLen]; decide)).2.1⟩

/-- Claim C7: when the table read from the source lacks the required
`costo_estimado` column, the Transform stage fails with the transformation
error, the whole run fails with that error, and the filesystem is left
unchanged — in particular no output file appears at the destination. -/
theorem C7_fail_fast (t : Table) (hmiss : "costo_estimado" ∉ t.names)
    (fs : FS) (p : String) (hp : fs p = some (FileContent.parsed t))
    (out : String) :
    run_pipeline fs (some p) out = Except.error ETLError.transformationError ∧
    writeResult fs (run_pipeline fs (some p) out) = fs := by
  have hex : extract_data fs (some p) = Except.ok t := by
    show readFile (fs p) = Except.ok t
    rw [hp]
    rfl
  have htr := transform_data_error_of_no_costo t hmiss
  have hrun : run_pipeline fs (some p) out =
      Except.error ETLError.transformationError := by
    unfold run_pipeline
    rw [hex]
    show run_transform_load t out = Except.error ETLError.transformationError
    unfold run_transform_load
    rw [htr]
  exact ⟨hrun, by rw [hrun]; rfl⟩

/-- Claim C7, witness: on a filesystem holding one parseable file whose
table lacks `costo_estimado`, the run fails with the transformation error
and writes nothing. -/
theorem C7_witness :
    run_pipeline fsW (some "data/raw/bad.csv") "out.csv" =
      Except.error ETLError.transformationError ∧
    writeResult fsW (run_pipeline fsW (some "data/raw/bad.csv") "out.csv") =
      fsW :=
  C7_fail_fast tNoCost (by decide) fsW "data/raw/bad.csv" rfl "out.csv"

/-- Claim C8, counterexample: the claim states that extract fails when the
source is missing; but on the empty filesystem, where the given path does
not exist, `extract_data` returns the sample table instead of failing —
the `if file_path and os.path.exists(file_path)` guard silently falls back
to `_load_sample_data`. -/
theorem C8_counterexample :
    extract_data fs0 (some "data/raw/missing.csv") = Except.ok sample_data :=
  rfl

/-- Claim C8, amended: `extract_data` fails with the extraction error
exactly when the source path exists and its file is unreadable or
unparseable; a parseable file is returned as its Table with no schema
validation; a path that does not exist does not fail but falls back to
the deterministic sample table. -/
theorem C8_extract_errors (fs : FS) (p : String) :
    (fs p = some FileContent.malformed →
      extract_data fs (some p) = Except.error ETLError.extractionError) ∧
    (fs p = none → extract_data fs (some p) = Except.ok sample_data) ∧
    (∀ u, fs p = some (FileContent.parsed u) →
      extract_data fs (some p) = Except.ok u) := by
  refine ⟨fun hm => ?_, fun hn => ?_, fun u hu => ?_⟩
  · show readFile (fs p) = _
    rw [hm]
    rfl
  · show readFile (fs p) = _
    rw [hn]
    rfl
  · show readFile (fs p) = _
    rw [hu]
    rfl

/-- Claim C8, witness: on the empty filesystem a read of a nonexistent
path yields the sample table. -/
theorem C8_witness :
    extract_data fs0 (some "data/raw/ventas_historico.csv") =
      Except.ok sample_data :=
  (C8_extract_errors fs0 "data/raw/ventas_historico.csv").2.1 rfl

/-- Claim C9: the run is deterministic and idempotent. The embedding is a
pure function of the filesystem and the arguments (the sample generator is
seeded, hence a fixed table), so determinism is structural; the theorem
states idempotence: running the pipeline a second time on the filesystem
left by the first run, with the same source and destination (and the
source not being the destination), gives exactly the same result — in
particular byte-identical output content at the destination. -/
theorem C9_idempotent_run (fs : FS) (src : Option String) (out : String)
    (hne : ∀ p, src = some p → p ≠ destPath out) :
    run_pipeline (writeResult fs (run_pipeline fs src out)) src out =
      run_pipeline fs src out := by
  rcases hr : run_pipeline fs src out with e | r
  · show run_pipeline fs src out = Except.error e
    exact hr
  · have hpath : r.2.1 = destPath out := run_pipeline_ok_path hr
    refine (run_pipeline_congr src out (extract_data_congr src ?_)).trans hr
    intro p hp
    show (if p = r.2.1 then some (FileContent.parsed r.1) else fs p) = fs p
    exact if_neg (fun e => hne p hp (e.trans hpath))

/-- Claim C9, witness: two successive sourceless runs on the empty
filesystem give identical results. -/
theorem C9_witness :
    run_pipeline
      (writeResult fs0 (run_pipeline fs0 none "datos_procesados.csv")) none
      "datos_procesados.csv" =
      run_pipeline fs0 none "datos_procesados.csv" :=
  C9_idempotent_run fs0 none "datos_procesados.csv"
    (fun _ hp => Option.noConfusion hp)

/-- Claim C10: a datetime-typed `fecha_solicitud` column is selected by
neither the numeric nor the object imputation, so a missing timestamp is
filled with neither the median nor the sentinel — the column is returned
unchanged — and the derived `mes` and `hora` cells of that row are
missing. -/
theorem C10_missing_timestamp (t t' : Table)
    (h : transform_data t = Except.ok t') (ts : List (Option Timestamp))
    (hts : t.getCol "fecha_solicitud" = some (ColData.dtCol ts))
    (i : ℕ) (hi : i < ts.length) (hnone : ts.getD i none = none) :
    t'.getCol "fecha_solicitud" = some (ColData.dtCol ts) ∧
    (∃ ms, t'.getCol "mes" = some (ColData.numCol ms) ∧
      ms.getD i none = none) ∧
    (∃ hs, t'.getCol "hora" = some (ColData.numCol hs) ∧
      hs.getD i none = none) := by
  obtain ⟨ts0, ce0, cp0, hts0, hfe0, hmes0, hdia0, hhora0, _, _, _, _⟩ :=
    transform_getCol_derived h
  have e : ts0 = ts := by
    rw [getCol_imputeTable, hts] at hts0
    simp only [Option.map_some', imputeCol] at hts0
    exact (ColData.dtCol.inj (Option.some.inj hts0)).symm
  subst e
  refine ⟨hfe0, ⟨mesVals ts0, hmes0, ?_⟩, ⟨horaVals ts0, hhora0, ?_⟩⟩
  · rw [mesVals, getD_map_in_range _ ts0 i hi none none, hnone]
    rfl
  · rw [horaVals, getD_map_in_range _ ts0 i hi none none, hnone]
    rfl

/-- Claim C10, witness: the second row of `wtbl` has a missing timestamp;
after the transform the timestamp column is unchanged and the derived
month and hour cells of that row are missing. -/
theorem C10_witness :
    wtbl'.getCol "fecha_solicitud" =
      some (ColData.dtCol [some ⟨1, "Sunday", 0⟩, none]) ∧
    (∃ ms, wtbl'.getCol "mes" = some (ColData.numCol ms) ∧
      ms.getD 1 none = none) ∧
    (∃ hs, wtbl'.getCol "hora" = some (ColData.numCol hs) ∧
      hs.getD 1 none = none) :=
  C10_missing_timestamp wtbl wtbl' rfl [some ⟨1, "Sunday", 0⟩, none]
    (by decide) 1 (by decide) rfl

end ETL
